import Mathlib

/-!
Verification of the admission-application visibility and query engine of the
`opptak` repository (`backend/controllers/applicationController.ts`).

The controller is embedded shallowly: Mongoose/MongoDB collections become lists
of records, the aggregation pipeline becomes a composition of list transformers,
and the mutable splice loops of `getApplicationById` become explicit recursive
functions over the committee/status arrays.  External effects (database insert
and save outcomes, the active-admission-period check) are passed in as explicit
parameters, exactly where the controller awaits them.
-/

namespace Opptak

/-- Status values, from `backend/utils/enums.ts` (`StatusTypes`). -/
inductive StatusTypes where
  | PENDING
  | INVITED_TO_INTERVIEW
  | INTERVIEW_DECLINED
  | INTERVIEW_COMPLETED
  | OFFER_GIVEN
  | OFFER_DECLINED
  | ACCEPTED
  | REJECTED
deriving DecidableEq, Repr

/-- Sort keys, from `backend/utils/enums.ts` (`SortTypes`). -/
inductive SortTypes where
  | NAME_ASC
  | NAME_DESC
  | DATE_ASC
  | DATE_DESC
deriving DecidableEq, Repr

/-- Modelled from the spec: `backend/utils/constants.ts` is not among the sources;
the spec only requires a sentinel Election Committee id distinct from the Main
Board id.  The concrete value is immaterial to every theorem below. -/
def ELECTION_COMMITTEE_ID : Nat := 1

/-- Modelled from the spec: the Main Board sentinel committee id from
`backend/utils/constants.ts` (not among the sources), distinct from
`ELECTION_COMMITTEE_ID`. -/
def MAIN_BOARD_ID : Nat := 2

/-- A committee document (`ICommittee` in `models/Committee`): numeric `_id`,
name, slug and the `accepts_admissions` gate. -/
structure ICommittee where
  _id : Nat
  name : String
  slug : String
  accepts_admissions : Bool
deriving DecidableEq, Repr

/-- A status document (`IStatus` in `models/Status`): its own id, the owning
committee's id, and the status value. -/
structure IStatus where
  _id : Nat
  committee : Nat
  value : StatusTypes
deriving DecidableEq, Repr

/-- A raw application document (`IApplication`): the `committees` and `statuses`
fields hold references (ids) before population. -/
structure IApplication where
  _id : Nat
  name : String
  submitted_date : Nat
  committees : List Nat
  statuses : List Nat
deriving DecidableEq, Repr

/-- One entry of a user's `committees` array (the controller reads its
`committee` field in `getUserCommitteeIdsByUserId`). -/
structure UserCommitteeEntry where
  committee : Nat
deriving DecidableEq, Repr

/-- A user document: numeric membership number and committee memberships. -/
structure IUser where
  _id : Nat
  committees : List UserCommitteeEntry
deriving DecidableEq, Repr

/-- An admission period document (a time window). -/
structure AdmissionPeriod where
  start_date : Nat
  end_date : Nat
deriving DecidableEq, Repr

/-- The five Mongo collections the controller touches. -/
structure Store where
  applications : List IApplication
  statuses : List IStatus
  users : List IUser
  admissionPeriods : List AdmissionPeriod
  committees : List ICommittee
deriving DecidableEq, Repr

/-- The membership resolver `getUserCommitteeIdsByUserId` (controller lines 15-27): find the user and
map each membership to its committee id; when no user is found the initial
empty array is returned. -/
def getUserCommitteeIdsByUserId (store : Store) (userId : Nat) : List Nat :=
  match store.users.find? (fun u => u._id == userId) with
  | some u => u.committees.map (fun m => m.committee)
  | none => []

/-- JavaScript truthiness of an array value: an array object is always truthy,
so the controller's guard `if (!userCommitteeIds)` is false for every array the
membership lookup can return, including the empty array. -/
def jsArrayFalsy (_userCommitteeIds : List Nat) : Bool :=
  false

/-- Outcome of the `getApplicationById` access decision: either the (possibly
redacted) populated committees/statuses arrays are returned with HTTP 200, or
access is denied with HTTP 403. -/
inductive GetByIdResult where
  | ok (committees : List ICommittee) (statuses : List IStatus)
  | forbidden
deriving DecidableEq, Repr

/-- Whether the access decision grants the caller the application. -/
def GetByIdResult.isOk : GetByIdResult → Bool
  | .ok _ _ => true
  | .forbidden => false

/-- The Main-Board redaction loop of `getApplicationById` (lines 78-84): find
the first committee entry whose `_id` is the Main Board id and splice it out of
both parallel arrays at that index (the loop breaks after one removal). -/
def mainBoardRedact (cs : List ICommittee) (ss : List IStatus) :
    List ICommittee × List IStatus :=
  match cs.findIdx? (fun c => c._id == MAIN_BOARD_ID) with
  | some i => (cs.eraseIdx i, ss.eraseIdx i)
  | none => (cs, ss)

/-- The ordinary-committee loop of `getApplicationById` (lines 94-106): walk the
committees array by index; an entry in the caller's set authorizes the caller,
an entry equal to the Main Board id is spliced out of both arrays at the current
index (and the index is not advanced, mirroring `id -= 1` before `id += 1`). -/
def ordinaryLoop (userCommitteeIds : List Nat) (i : Nat) (authorized : Bool)
    (cs : List ICommittee) (ss : List IStatus) :
    Bool × List ICommittee × List IStatus :=
  if h : i < cs.length then
    let c := cs.get ⟨i, h⟩
    if userCommitteeIds.contains c._id then
      ordinaryLoop userCommitteeIds (i + 1) true cs ss
    else if c._id == MAIN_BOARD_ID then
      ordinaryLoop userCommitteeIds i authorized (cs.eraseIdx i) (ss.eraseIdx i)
    else
      ordinaryLoop userCommitteeIds (i + 1) authorized cs ss
  else
    (authorized, cs, ss)
termination_by cs.length - i
decreasing_by
  · omega
  · have := List.length_eraseIdx_of_lt h
    omega
  · omega

/-- The access-control core of `getApplicationById` (lines 71-110), applied to
the populated committees/statuses arrays of the requested application. -/
def getApplicationByIdCore (userCommitteeIds : List Nat)
    (cs : List ICommittee) (ss : List IStatus) : GetByIdResult :=
  if userCommitteeIds.contains ELECTION_COMMITTEE_ID then
    .ok cs ss
  else if userCommitteeIds.contains MAIN_BOARD_ID then
    let p := mainBoardRedact cs ss
    if p.1.length > 0 then .ok p.1 p.2 else .forbidden
  else
    let r := ordinaryLoop userCommitteeIds 0 false cs ss
    if r.1 then .ok r.2.1 r.2.2 else .forbidden

/-- Query parameters of the list endpoint after express-validator has accepted
them.  JavaScript truthiness of the raw parameters is encoded as: an absent or
empty `name` string is falsy (`""` here), an absent `committee` parameter is the
empty id list, and absent `status`, `sort` and `page` are `none`. -/
structure QueryParams where
  page : Option Nat
  name : String
  committee : List Nat
  status : Option StatusTypes
  sortparam : Option SortTypes
deriving DecidableEq, Repr

/-- Scope stage of the aggregation (lines 152-174): Election Committee sees
everything; Main Board matches `committees ≠ [MAIN_BOARD_ID]` (the `$ne` of the
exact singleton array); an ordinary caller matches applications whose committee
array meets the caller's set (`$in`). -/
def scopeStage (userCommitteeIds : List Nat) (apps : List IApplication) :
    List IApplication :=
  if userCommitteeIds.contains ELECTION_COMMITTEE_ID then
    apps
  else if userCommitteeIds.contains MAIN_BOARD_ID then
    apps.filter (fun a => a.committees != [MAIN_BOARD_ID])
  else
    apps.filter (fun a => a.committees.any (fun c => userCommitteeIds.contains c))

/-- One position of the modelled regular-expression fragment used by the
`$regex` name filter: `.` matches any character, every other character matches
itself up to case (the `i` option).  The model is faithful for patterns whose
characters are either `.` or non-metacharacters of the full regex syntax; the
theorems below only instantiate it on that fragment. -/
def regexMatchAt : List Char → List Char → Bool
  | [], _ => true
  | _ :: _, [] => false
  | p :: ps, c :: cs => (p == '.' || p.toLower == c.toLower) && regexMatchAt ps cs

/-- Unanchored regex search, as MongoDB's `$regex` performs: the pattern may
match starting at any position of the subject. -/
def regexSearch (pat s : List Char) : Bool :=
  (List.range (s.length + 1)).any (fun i => regexMatchAt pat (s.drop i))

/-- Characters that carry special meaning in the regular-expression syntax the
controller hands the raw `name` parameter to. -/
def regexMetaChars : List Char :=
  ['.', '*', '+', '?', '(', ')', '[', ']', '\x7b', '\x7d', '^', '$', '|', '\\']

/-- Name filter stage (lines 175-184): applied only when `name` is truthy
(non-empty), it keeps the applications whose name matches the supplied string
as a case-insensitive regular expression. -/
def nameStage (name : String) (apps : List IApplication) : List IApplication :=
  if name = "" then apps
  else apps.filter (fun a => regexSearch name.data a.name.data)

/-- Case-insensitive substring containment — the behaviour the specification's
words ascribe to the name filter, for comparison with `nameStage`. -/
def containsCI (needle hay : List Char) : Bool :=
  (List.range (hay.length + 1)).any
    (fun i => (needle.map Char.toLower).isPrefixOf ((hay.drop i).map Char.toLower))

/-- An application after the `$lookup` of statuses (lines 187-195): the
`statuses` field now holds the embedded status documents. -/
structure IApplicationWithStatuses where
  _id : Nat
  name : String
  submitted_date : Nat
  committees : List Nat
  statuses : List IStatus
deriving DecidableEq, Repr

/-- The status `$lookup` stage: each application's status ids are replaced by
the status documents whose `_id` is among them, in collection order. -/
def populateStatusStage (store : Store) (apps : List IApplication) :
    List IApplicationWithStatuses :=
  apps.map (fun a =>
    { _id := a._id, name := a.name, submitted_date := a.submitted_date,
      committees := a.committees,
      statuses := store.statuses.filter (fun s => a.statuses.contains s._id) })

/-- Status/committee filter stages (lines 207-244): with both parameters an
`$elemMatch` requires one status entry satisfying both conditions at once; with
only a status, any entry with that value; with only committees, an `$in` on the
committee ids; with neither, no stage is pushed. -/
def statusCommitteeFilterStage (committeeIds : List Nat)
    (status : Option StatusTypes) (apps : List IApplicationWithStatuses) :
    List IApplicationWithStatuses :=
  match status with
  | some v =>
    if committeeIds ≠ [] then
      apps.filter (fun a =>
        a.statuses.any (fun s => committeeIds.contains s.committee && s.value == v))
    else
      apps.filter (fun a => a.statuses.any (fun s => s.value == v))
  | none =>
    if committeeIds ≠ [] then
      apps.filter (fun a => a.committees.any (fun c => committeeIds.contains c))
    else
      apps

/-- An application after both lookups (the controller's
`IPopulatedApplicationCommitteesAndStatus`). -/
structure IPopulatedApplicationCommitteesAndStatus where
  _id : Nat
  name : String
  submitted_date : Nat
  committees : List ICommittee
  statuses : List IStatus
deriving DecidableEq, Repr

/-- The committee `$lookup` stage (lines 247-255). -/
def populateCommitteesStage (store : Store) (apps : List IApplicationWithStatuses) :
    List IPopulatedApplicationCommitteesAndStatus :=
  apps.map (fun a =>
    { _id := a._id, name := a.name, submitted_date := a.submitted_date,
      committees := store.committees.filter (fun c => a.committees.contains c._id),
      statuses := a.statuses })

/-- Modelled from the spec: `getSortTypeValue` lives in
`utils/applicationQueryMiddleware` (not among the sources); the spec fixes the
four sort keys `name_asc|name_desc|date_asc|date_desc`.  The stage is pushed
only when a sort key was supplied. -/
def sortStage (sortparam : Option SortTypes)
    (apps : List IPopulatedApplicationCommitteesAndStatus) :
    List IPopulatedApplicationCommitteesAndStatus :=
  match sortparam with
  | none => apps
  | some .NAME_ASC => apps.mergeSort (fun a b => a.name ≤ b.name)
  | some .NAME_DESC => apps.mergeSort (fun a b => b.name ≤ a.name)
  | some .DATE_ASC => apps.mergeSort (fun a b => a.submitted_date ≤ b.submitted_date)
  | some .DATE_DESC => apps.mergeSort (fun a b => b.submitted_date ≤ a.submitted_date)

/-- The documents reaching the pagination stage: the pipeline of lines 150-261
applied in the order the controller pushes the stages. -/
def matchedApplications (store : Store) (userCommitteeIds : List Nat)
    (q : QueryParams) : List IPopulatedApplicationCommitteesAndStatus :=
  sortStage q.sortparam
    (populateCommitteesStage store
      (statusCommitteeFilterStage q.committee q.status
        (populateStatusStage store
          (nameStage q.name (scopeStage userCommitteeIds store.applications)))))

/-- The fixed page size (line 264). -/
def LIMIT : Nat := 4

/-- Skip count `startIndex` (line 265): `(page - 1) * 4` when a page was supplied, else 0. -/
def startIndex (page : Option Nat) : Nat :=
  match page with
  | some p => (p - 1) * LIMIT
  | none => 0

/-- The pagination metadata built inside the `$facet` (lines 269-277). -/
structure PaginationInfo where
  currentPage : Nat
  numberOfPages : Int
deriving DecidableEq, Repr

/-- Result of the `$facet` stage: the page window and the metadata arm.
`$count` emits no document when no documents reach it, so the metadata is
`none` exactly when the stage's input is empty. -/
structure FacetResult where
  applications : List IPopulatedApplicationCommitteesAndStatus
  pagination : Option PaginationInfo
deriving DecidableEq, Repr

/-- The `$facet` pagination stage (lines 263-280): `$skip startIndex`,
`$limit 4`, and in parallel `$count` followed by `currentPage` (the requested
page, or `0` when none was requested) and `numberOfPages = $ceil (total / 4)`,
real division. -/
def paginationStage (page : Option Nat)
    (apps : List IPopulatedApplicationCommitteesAndStatus) : FacetResult :=
  { applications := (apps.drop (startIndex page)).take LIMIT,
    pagination :=
      if apps.length = 0 then none
      else
        some { currentPage := match page with | some p => p | none => 0,
               numberOfPages := ⌈((apps.length : ℚ) / (LIMIT : ℚ))⌉ } }

/-- The list endpoint's response body. -/
structure ListResponseBody where
  applications : List IPopulatedApplicationCommitteesAndStatus
  pagination : PaginationInfo
deriving DecidableEq, Repr

/-- The replacement object returned when the page window is empty (line 325). -/
def emptyListResponse : ListResponseBody :=
  { applications := [], pagination := { currentPage := 1, numberOfPages := 0 } }

/-- The projection's `$mergeObjects`/`$arrayElemAt` on the facet's pagination
arm (lines 298-306).  When the arm is empty the merged fields are simply
missing in the JSON; that happens only when the window is also empty, in which
case the controller substitutes `emptyListResponse`, so the default supplied
here is never observable. -/
def facetPagination (f : FacetResult) : PaginationInfo :=
  f.pagination.getD { currentPage := 0, numberOfPages := 0 }

/-- Post-aggregation Main-Board redaction of one application's committees
(lines 336-338). -/
def redactCommitteesEntry (cs : List ICommittee) : List ICommittee :=
  cs.filter (fun c => c._id != MAIN_BOARD_ID)

/-- Post-aggregation Main-Board redaction of one application's statuses
(lines 339-341). -/
def redactStatusesEntry (ss : List IStatus) : List IStatus :=
  ss.filter (fun s => s.committee != MAIN_BOARD_ID)

/-- The result-shaping tail of `getApplications` (lines 320-345): run the
pipeline, replace an empty page window by `emptyListResponse`, then, for any
caller outside the Election Committee, strip Main-Board entries from every
returned application. -/
def getApplicationsCore (store : Store) (userCommitteeIds : List Nat)
    (q : QueryParams) : ListResponseBody :=
  let facet := paginationStage q.page (matchedApplications store userCommitteeIds q)
  let applicationRes :=
    if facet.applications.length ≠ 0 then
      { applications := facet.applications, pagination := facetPagination facet }
    else emptyListResponse
  if userCommitteeIds.contains ELECTION_COMMITTEE_ID then
    applicationRes
  else
    { applicationRes with
      applications := applicationRes.applications.map (fun a =>
        { a with committees := redactCommitteesEntry a.committees,
                 statuses := redactStatusesEntry a.statuses }) }

/-- An HTTP handler outcome: a 200 body, or an error status with its message. -/
inductive HandlerResult (α : Type) where
  | ok (body : α)
  | err (status : Nat) (message : String)
deriving DecidableEq, Repr

/-- Handler `getApplications` (lines 116-349): authentication guard, the
membership lookup, the dead `!userCommitteeIds` truthiness guard, then the
aggregation and redaction. -/
def getApplicationsHandler (ntnuiNo : Option Nat) (store : Store)
    (q : QueryParams) : HandlerResult ListResponseBody :=
  match ntnuiNo with
  | none => .err 401 "Unauthorized"
  | some uid =>
    let userCommitteeIds := getUserCommitteeIdsByUserId store uid
    if jsArrayFalsy userCommitteeIds then
      .err 403 "The user is not member of any committee"
    else
      .ok (getApplicationsCore store userCommitteeIds q)

/-- Mongoose population of a single application's committee and status
references for the detail view, in array order. -/
def populateDetail (store : Store) (a : IApplication) :
    List ICommittee × List IStatus :=
  (a.committees.filterMap (fun cid => store.committees.find? (fun c => c._id == cid)),
   a.statuses.filterMap (fun sid => store.statuses.find? (fun s => s._id == sid)))

/-- Handler `getApplicationById` (lines 39-114): authentication guard,
membership lookup, the dead truthiness guard, 404 when the id does not resolve,
then the access-control core on the populated arrays. -/
def getApplicationByIdHandler (ntnuiNo : Option Nat) (store : Store)
    (appId : Nat) : HandlerResult (List ICommittee × List IStatus) :=
  match ntnuiNo with
  | none => .err 401 "Unauthorized"
  | some uid =>
    let userCommitteeIds := getUserCommitteeIdsByUserId store uid
    if jsArrayFalsy userCommitteeIds then
      .err 403 "The user is not member of any committee"
    else
      match store.applications.find? (fun a => a._id == appId) with
      | none => .err 404 "Could not find application"
      | some a =>
        let p := populateDetail store a
        match getApplicationByIdCore userCommitteeIds p.1 p.2 with
        | .ok cs ss => .ok (cs, ss)
        | .forbidden => .err 403 "You do not have access to this application"

/-- The wipe endpoint `wipeAdmissionData` (lines 402-424): only a Main-Board member may wipe;
on success Applications, Statuses and AdmissionPeriods are emptied, every user
but the caller is deleted, and every committee's `accepts_admissions` is reset
to false. -/
def wipeAdmissionData (ntnuiNo : Option Nat) (store : Store) :
    HandlerResult String × Store :=
  match ntnuiNo with
  | none => (.err 401 "Unauthorized", store)
  | some uid =>
    let committeeIds := getUserCommitteeIdsByUserId store uid
    if committeeIds.contains MAIN_BOARD_ID then
      (.ok "Admission data successfully wiped",
       { applications := [],
         statuses := [],
         users := store.users.filter (fun u => u._id == uid),
         admissionPeriods := [],
         committees := store.committees.map (fun c => { c with accepts_admissions := false }) })
    else
      (.err 403 "You do not have access to this resource", store)

/-- The request body of the submit endpoint (core fields). -/
structure PostBody where
  name : String
  committees : List Nat
deriving DecidableEq, Repr

/-- Outcome of the external `StatusModel.insertMany` call: success hands back
the database-assigned ids; failure may leave some documents durably inserted
(ordered bulk insert without a transaction). -/
inductive StatusInsertOutcome where
  | ok (assignedIds : List Nat)
  | failure (durable : List IStatus)
deriving DecidableEq, Repr

/-- Outcome of the external `application.save()` call. -/
inductive AppSaveOutcome where
  | saved
  | validationFailed (message : String)
  | saveFailed
deriving DecidableEq, Repr

/-- HTTP-level outcome of the submit endpoint. -/
inductive PostResult where
  | created (name : String) (statusIds : List Nat)
  | badRequest (message : String)
  | forbiddenPeriod (message : String)
  | internal (message : String)
deriving DecidableEq, Repr

/-- The submit endpoint `postApplication` (lines 351-400): reject when no admission period is
active (403); reject when `findOne` locates an addressed committee with
`accepts_admissions: false` (400), before anything is written; otherwise insert
one Pending status per addressed committee (ordered bulk), aborting with 500
before the application is created when the insert fails; finally save the
application referencing the inserted status ids. -/
def postApplication (admissionActive : Bool) (body : PostBody)
    (insertOutcome : StatusInsertOutcome) (saveOutcome : AppSaveOutcome)
    (store : Store) : PostResult × Store :=
  if !admissionActive then
    (.forbiddenPeriod "Admission period is not active", store)
  else
    match store.committees.find? (fun c =>
        body.committees.contains c._id && !c.accepts_admissions) with
    | some _ =>
      (.badRequest "A committee the application was sent to is closed", store)
    | none =>
      match insertOutcome with
      | .failure durable =>
        (.internal "Something went wrong creating statuses",
         { store with statuses := store.statuses ++ durable })
      | .ok assignedIds =>
        let insertedStatuses : List IStatus :=
          (body.committees.zip assignedIds).map
            (fun p => { _id := p.2, committee := p.1, value := StatusTypes.PENDING })
        let statusIds := insertedStatuses.map (fun s => s._id)
        let newApplication : IApplication :=
          { _id := store.applications.length + 1, name := body.name,
            submitted_date := 0, committees := body.committees,
            statuses := statusIds }
        let store1 := { store with statuses := store.statuses ++ insertedStatuses }
        match saveOutcome with
        | .saved =>
          (.created body.name statusIds,
           { store1 with applications := store1.applications ++ [newApplication] })
        | .validationFailed m => (.badRequest m, store1)
        | .saveFailed => (.internal "Unable to save application", store1)

/-- The visibility rule exactly as the claim states it: a plain disjunction of
the three conditions over the caller's committee set `U` and the application's
addressed committee list `A`. -/
def specSees (U A : List Nat) : Prop :=
  ELECTION_COMMITTEE_ID ∈ U ∨
  (MAIN_BOARD_ID ∈ U ∧ A ≠ [MAIN_BOARD_ID]) ∨
  (∃ c ∈ A, c ∈ U)

/-- The amended visibility rule: the three conditions are tried in priority
order, so the intersection rule only applies to callers on neither special
committee (a Main-Board caller is refused an application addressed exactly
`[Main Board]` even though the intersection is non-empty). -/
def amendedSees (U A : List Nat) : Prop :=
  ELECTION_COMMITTEE_ID ∈ U ∨
  (ELECTION_COMMITTEE_ID ∉ U ∧ MAIN_BOARD_ID ∈ U ∧ A ≠ [MAIN_BOARD_ID]) ∨
  (ELECTION_COMMITTEE_ID ∉ U ∧ MAIN_BOARD_ID ∉ U ∧ ∃ c ∈ A, c ∈ U)

/-- Fixture: the Main Board committee document. -/
def mbOnlyCommittee : ICommittee :=
  { _id := MAIN_BOARD_ID, name := "Main Board", slug := "main-board",
    accepts_admissions := true }

/-- Fixture: a status owned by the Main Board. -/
def mbOnlyStatus : IStatus :=
  { _id := 11, committee := MAIN_BOARD_ID, value := .PENDING }

/-- Fixture: an application addressed only to the Main Board. -/
def mbOnlyApplication : IApplication :=
  { _id := 1, name := "Ola Nordmann", submitted_date := 5,
    committees := [MAIN_BOARD_ID], statuses := [11] }

/-- Fixture: an ordinary committee with id 5. -/
def sprintCommittee : ICommittee :=
  { _id := 5, name := "Sprint", slug := "sprint", accepts_admissions := true }

/-- Fixture: a status owned by committee 5. -/
def sprintStatus : IStatus := { _id := 21, committee := 5, value := .PENDING }

/-- Fixture: an ordinary committee with id 7. -/
def climbingCommittee : ICommittee :=
  { _id := 7, name := "Climbing", slug := "climbing", accepts_admissions := true }

/-- Fixture: a status owned by committee 7. -/
def climbingStatus : IStatus := { _id := 22, committee := 7, value := .ACCEPTED }

/-- Fixture for the conjunctive-filter claim: statuses
`[(committee 7, Pending), (committee 9, Accepted)]`. -/
def conjunctiveFixture : IApplicationWithStatuses :=
  { _id := 3, name := "Kari", submitted_date := 1, committees := [7, 9],
    statuses := [{ _id := 31, committee := 7, value := .PENDING },
                 { _id := 32, committee := 9, value := .ACCEPTED }] }

/-- Fixture: a minimal populated application used to measure pagination. -/
def sampleApplication (n : Nat) : IPopulatedApplicationCommitteesAndStatus :=
  { _id := n, name := "App", submitted_date := n, committees := [], statuses := [] }

/-- Fixture: ten matching applications, as in the claim's pagination example. -/
def tenApplications : List IPopulatedApplicationCommitteesAndStatus :=
  (List.range 10).map sampleApplication

/-- Fixture: a Main-Board member with membership number 7. -/
def boardUser : IUser := { _id := 7, committees := [{ committee := MAIN_BOARD_ID }] }

/-- Fixture: an ordinary member with membership number 8. -/
def plainUser : IUser := { _id := 8, committees := [{ committee := 5 }] }

/-- Fixture: a populated store for the wipe claim. -/
def wipeStore : Store :=
  { applications := [mbOnlyApplication], statuses := [mbOnlyStatus],
    users := [boardUser, plainUser],
    admissionPeriods := [{ start_date := 0, end_date := 9 }],
    committees := [sprintCommittee, mbOnlyCommittee] }

/-- Fixture: an authenticated user who belongs to no committee. -/
def committeeLessUser : IUser := { _id := 42, committees := [] }

/-- Fixture: an application addressed to committee 5. -/
def kariApplication : IApplication :=
  { _id := 1, name := "Kari", submitted_date := 10, committees := [5], statuses := [] }

/-- Fixture: a store whose only user belongs to no committee. -/
def emptyMembershipStore : Store :=
  { applications := [kariApplication], statuses := [], users := [committeeLessUser],
    admissionPeriods := [], committees := [sprintCommittee] }

/-- Fixture: a list query with every parameter absent. -/
def plainQuery : QueryParams :=
  { page := none, name := "", committee := [], status := none, sortparam := none }

/-- Fixture: a committee that does not accept admissions. -/
def closedCommittee : ICommittee :=
  { _id := 9, name := "Closed", slug := "closed", accepts_admissions := false }

/-- Fixture: a store holding only the closed committee. -/
def closedStore : Store :=
  { applications := [], statuses := [], users := [], admissionPeriods := [],
    committees := [closedCommittee] }

/-- Fixture: a submission addressed to the closed committee. -/
def closedBody : PostBody := { name := "Ola", committees := [9] }

/-- Fixture: a store holding only the open committee 5. -/
def openStore : Store :=
  { applications := [], statuses := [], users := [], admissionPeriods := [],
    committees := [sprintCommittee] }

/-- Fixture: a submission addressed to the open committee 5. -/
def openBody : PostBody := { name := "Ola", committees := [5] }

/-- Fixture: an application whose applicant is named "ab". -/
def abApplication : IApplication :=
  { _id := 4, name := "ab", submitted_date := 0, committees := [5], statuses := [] }

/-- Fixture: a list query requesting page 2 and nothing else. -/
def pagedQuery : QueryParams :=
  { page := some 2, name := "", committee := [], status := none, sortparam := none }

/-- Fixture: a store with a single visible application, for the
out-of-range-page claim. -/
def onePageStore : Store :=
  { applications := [kariApplication], statuses := [], users := [],
    admissionPeriods := [], committees := [sprintCommittee] }

/-! ### Helper lemmas -/

/-- Dropping `i` elements after erasing index `i` is dropping `i + 1` elements
of the original list. -/
theorem drop_eraseIdx_self {α : Type} (l : List α) (i : Nat) (h : i ≤ l.length) :
    (l.eraseIdx i).drop i = l.drop (i + 1) := by
  rw [List.eraseIdx_eq_take_drop_succ]
  have hlen : (l.take i).length = i := by
    rw [List.length_take]
    omega
  calc (List.take i l ++ List.drop (i + 1) l).drop i
      = (List.take i l ++ List.drop (i + 1) l).drop (List.take i l).length := by
        rw [hlen]
    _ = List.drop (i + 1) l := List.drop_left _ _

/-- The authorization flag computed by the ordinary-committee loop: the caller
is authorized exactly when some committee entry from position `i` on lies in
the caller's set (the Main-Board splices never remove such an entry, because
they only fire on entries outside the caller's set). -/
theorem ordinaryLoop_fst (U : List Nat) (i : Nat) (a : Bool)
    (cs : List ICommittee) (ss : List IStatus) :
    (ordinaryLoop U i a cs ss).1 =
      (a || (cs.drop i).any (fun c => U.contains c._id)) := by
  induction i, a, cs, ss using ordinaryLoop.induct U with
  | case1 i a cs ss h c hc ih =>
    rw [ordinaryLoop.eq_def]
    simp only [dif_pos h]
    show (if U.contains (cs.get ⟨i, h⟩)._id then ordinaryLoop U (i + 1) true cs ss
          else if (cs.get ⟨i, h⟩)._id == MAIN_BOARD_ID then
            ordinaryLoop U i a (cs.eraseIdx i) (ss.eraseIdx i)
          else ordinaryLoop U (i + 1) a cs ss).1 = _
    rw [if_pos hc, ih, List.drop_eq_getElem_cons h, List.any_cons]
    have hcg : U.contains cs[i]._id = true := hc
    simp at hcg
    simp [hcg]
  | case2 i a cs ss h c hc hmb ih =>
    rw [ordinaryLoop.eq_def]
    simp only [dif_pos h]
    show (if U.contains (cs.get ⟨i, h⟩)._id then ordinaryLoop U (i + 1) true cs ss
          else if (cs.get ⟨i, h⟩)._id == MAIN_BOARD_ID then
            ordinaryLoop U i a (cs.eraseIdx i) (ss.eraseIdx i)
          else ordinaryLoop U (i + 1) a cs ss).1 = _
    rw [if_neg hc, if_pos hmb, ih, drop_eraseIdx_self cs i (Nat.le_of_lt h),
      List.drop_eq_getElem_cons h, List.any_cons]
    have hcg : U.contains cs[i]._id = false := by simpa using hc
    simp at hcg
    simp [hcg]
  | case3 i a cs ss h c hc hmb ih =>
    rw [ordinaryLoop.eq_def]
    simp only [dif_pos h]
    show (if U.contains (cs.get ⟨i, h⟩)._id then ordinaryLoop U (i + 1) true cs ss
          else if (cs.get ⟨i, h⟩)._id == MAIN_BOARD_ID then
            ordinaryLoop U i a (cs.eraseIdx i) (ss.eraseIdx i)
          else ordinaryLoop U (i + 1) a cs ss).1 = _
    rw [if_neg hc, if_neg hmb, ih, List.drop_eq_getElem_cons h, List.any_cons]
    have hcg : U.contains cs[i]._id = false := by simpa using hc
    simp at hcg
    simp [hcg]
  | case4 i a cs ss h =>
    rw [ordinaryLoop.eq_def]
    simp only [dif_neg h]
    rw [List.drop_eq_nil_of_le (by omega), List.any_nil, Bool.or_false]

/-- The committees array left by the Main-Board splice is non-empty exactly
when the original committees array is neither empty nor the singleton
`[Main Board]`. -/
theorem mainBoardRedact_fst_pos (cs : List ICommittee) (ss : List IStatus)
    (hne : cs ≠ []) :
    0 < (mainBoardRedact cs ss).1.length ↔
      cs.map ICommittee._id ≠ [MAIN_BOARD_ID] := by
  match cs with
  | c :: cs' =>
    by_cases hc : (c._id == MAIN_BOARD_ID) = true
    · have hcid : c._id = MAIN_BOARD_ID := by simpa using hc
      simp only [mainBoardRedact, List.findIdx?_cons, hc, if_pos,
        List.eraseIdx_cons_zero, List.map_cons, hcid]
      constructor
      · intro hpos h
        rw [List.cons.injEq] at h
        have : cs' = [] := List.map_eq_nil_iff.mp h.2
        simp [this] at hpos
      · intro h
        rcases List.eq_nil_or_concat cs' with h' | ⟨l, x, h'⟩
        · exact absurd (by simp [h']) h
        · simp [h']
    · have hcid : c._id ≠ MAIN_BOARD_ID := by simpa using hc
      have hhead : (c._id :: cs'.map ICommittee._id) ≠ [MAIN_BOARD_ID] := by
        intro h
        rw [List.cons.injEq] at h
        exact hcid h.1
      simp only [mainBoardRedact, List.findIdx?_cons, hc, if_neg,
        Bool.false_eq_true, not_false_iff, List.findIdx?_succ, List.map_cons]
      cases hf : cs'.findIdx? (fun x => x._id == MAIN_BOARD_ID) with
      | none => simpa [hf] using hhead
      | some j => simpa [hf, List.eraseIdx_cons_succ] using hhead

/-! ### C1: the visibility rule -/

/-- Claim C1 as stated is refuted: a caller on the Main Board requesting an
application addressed exactly to the Main Board satisfies the claim's
visibility disjunction (the intersection `U ∩ A` is non-empty), yet the
get-by-id decision is 403 and the list scope stage excludes the application. -/
theorem visibility_rule_counterexample :
    specSees [MAIN_BOARD_ID] [MAIN_BOARD_ID] ∧
    getApplicationByIdCore [MAIN_BOARD_ID] [mbOnlyCommittee] [mbOnlyStatus] =
      .forbidden ∧
    scopeStage [MAIN_BOARD_ID] [mbOnlyApplication] = [] := by
  refine ⟨Or.inr (Or.inr ⟨MAIN_BOARD_ID, by simp, by simp⟩), by decide, by decide⟩

/-- Claim C1 (amended): the caller sees an application exactly under the
prioritized rule `amendedSees` — the Election Committee sees everything, a
Main-Board caller sees everything except an application addressed exactly
`[Main Board]`, and any other caller sees exactly the applications whose
addressed committees meet the caller's set; this holds for the get-by-id access
decision (on applications addressed to at least one committee) and for the list
endpoint's scope stage. -/
theorem visibility_rule_amended :
    (∀ (U : List Nat) (cs : List ICommittee) (ss : List IStatus), cs ≠ [] →
      ((getApplicationByIdCore U cs ss).isOk = true ↔
        amendedSees U (cs.map ICommittee._id))) ∧
    (∀ (U : List Nat) (apps : List IApplication) (a : IApplication),
      a ∈ scopeStage U apps ↔ a ∈ apps ∧ amendedSees U a.committees) := by
  constructor
  · intro U cs ss hne
    unfold getApplicationByIdCore
    by_cases hEC : U.contains ELECTION_COMMITTEE_ID
    · have hEC' : ELECTION_COMMITTEE_ID ∈ U := by simpa using hEC
      simp [hEC, GetByIdResult.isOk, amendedSees, hEC']
    · have hEC' : ELECTION_COMMITTEE_ID ∉ U := by simpa using hEC
      by_cases hMB : U.contains MAIN_BOARD_ID
      · have hMB' : MAIN_BOARD_ID ∈ U := by simpa using hMB
        simp only [hEC, Bool.false_eq_true, if_false, hMB, if_true]
        have hsplit :
            ((if (mainBoardRedact cs ss).1.length > 0 then
                GetByIdResult.ok (mainBoardRedact cs ss).1 (mainBoardRedact cs ss).2
              else .forbidden).isOk = true) ↔
              0 < (mainBoardRedact cs ss).1.length := by
          split <;> simp [GetByIdResult.isOk, *]
        rw [hsplit, mainBoardRedact_fst_pos cs ss hne]
        simp [amendedSees, hEC', hMB']
      · have hMB' : MAIN_BOARD_ID ∉ U := by simpa using hMB
        simp only [hEC, Bool.false_eq_true, if_false, hMB]
        have hsplit :
            ((if (ordinaryLoop U 0 false cs ss).1 then
                GetByIdResult.ok (ordinaryLoop U 0 false cs ss).2.1
                  (ordinaryLoop U 0 false cs ss).2.2
              else .forbidden).isOk = true) ↔
              (ordinaryLoop U 0 false cs ss).1 = true := by
          split <;> simp [GetByIdResult.isOk, *]
        rw [hsplit, ordinaryLoop_fst]
        simp [amendedSees, hEC', hMB', List.any_eq_true, List.mem_map]
  · intro U apps a
    unfold scopeStage
    by_cases hEC : U.contains ELECTION_COMMITTEE_ID
    · have hEC' : ELECTION_COMMITTEE_ID ∈ U := by simpa using hEC
      simp [hEC, amendedSees, hEC']
    · have hEC' : ELECTION_COMMITTEE_ID ∉ U := by simpa using hEC
      by_cases hMB : U.contains MAIN_BOARD_ID
      · have hMB' : MAIN_BOARD_ID ∈ U := by simpa using hMB
        simp [hEC, hMB, List.mem_filter, amendedSees, hEC', hMB']
      · have hMB' : MAIN_BOARD_ID ∉ U := by simpa using hMB
        simp [hEC, hMB, List.mem_filter, amendedSees, hEC', hMB',
          List.any_eq_true]

/-- Witness for C1 (amended), at an ordinary caller on committee 5 and an
application addressed to committee 5. -/
theorem visibility_rule_amended_witness :
    ([sprintCommittee] : List ICommittee) ≠ [] ∧
    ((getApplicationByIdCore [5] [sprintCommittee] [sprintStatus]).isOk = true ↔
      amendedSees [5] ([sprintCommittee].map ICommittee._id)) :=
  ⟨by decide,
   visibility_rule_amended.1 [5] [sprintCommittee] [sprintStatus] (by decide)⟩

/-! ### C2: redaction keeps the two arrays index-synchronized -/

/-- Claim C2: on an application with committees `[c0, c1, c2]` and aligned
statuses `[s0, s1, s2]` where `c1` is the Main Board, every redaction path a
non-Election caller goes through — the Main-Board splice of `getApplicationById`,
the ordinary-committee splice loop, and the list endpoint's per-application
filters — removes position 1 from both arrays, yielding `([c0, c2], [s0, s2])`. -/
theorem redaction_index_alignment
    (U : List Nat) (c0 c1 c2 : ICommittee) (s0 s1 s2 : IStatus)
    (h0 : c0._id ≠ MAIN_BOARD_ID) (h1 : c1._id = MAIN_BOARD_ID)
    (h2 : c2._id ≠ MAIN_BOARD_ID)
    (a0 : s0.committee = c0._id) (a1 : s1.committee = c1._id)
    (a2 : s2.committee = c2._id) (hU : MAIN_BOARD_ID ∉ U) :
    mainBoardRedact [c0, c1, c2] [s0, s1, s2] = ([c0, c2], [s0, s2]) ∧
    (ordinaryLoop U 0 false [c0, c1, c2] [s0, s1, s2]).2 = ([c0, c2], [s0, s2]) ∧
    redactCommitteesEntry [c0, c1, c2] = [c0, c2] ∧
    redactStatusesEntry [s0, s1, s2] = [s0, s2] := by
  refine ⟨?_, ?_, ?_, ?_⟩
  · simp [mainBoardRedact, List.findIdx?_cons, List.findIdx?_succ, h0, h1]
  · by_cases hx0 : c0._id ∈ U <;>
      by_cases hx2 : c2._id ∈ U <;>
        simp [ordinaryLoop, hx0, hx2, hU, h0, h1, h2]
  · simp [redactCommitteesEntry, List.filter_cons, h0, h1, h2]
  · simp [redactStatusesEntry, List.filter_cons, a0, a1, a2, h0, h1, h2]

/-- Witness for C2, at the concrete committees 5 / Main Board / 7 with their
aligned statuses and an ordinary caller on committee 5. -/
theorem redaction_index_alignment_witness :
    sprintCommittee._id ≠ MAIN_BOARD_ID ∧
    mainBoardRedact [sprintCommittee, mbOnlyCommittee, climbingCommittee]
        [sprintStatus, mbOnlyStatus, climbingStatus] =
      ([sprintCommittee, climbingCommittee], [sprintStatus, climbingStatus]) :=
  ⟨by decide,
   (redaction_index_alignment [5] sprintCommittee mbOnlyCommittee climbingCommittee
      sprintStatus mbOnlyStatus climbingStatus (by decide) (by decide) (by decide)
      (by decide) (by decide) (by decide) (by decide)).1⟩

/-! ### C3: the combined status/committee filter is conjunctive -/

/-- Claim C3: when both a committee filter and a status filter are supplied,
an application passes the filter stage exactly when a single status entry has
its committee in the supplied id set and its value equal to the supplied
status; in particular the fixture with statuses
`[(7, Pending), (9, Accepted)]` does not match ids `[7]` with status
`Accepted`. -/
theorem conjunctive_status_committee_filter
    (committeeIds : List Nat) (v : StatusTypes)
    (apps : List IApplicationWithStatuses) (a : IApplicationWithStatuses)
    (hids : committeeIds ≠ []) :
    (a ∈ statusCommitteeFilterStage committeeIds (some v) apps ↔
      a ∈ apps ∧ ∃ s ∈ a.statuses, s.committee ∈ committeeIds ∧ s.value = v) ∧
    conjunctiveFixture ∉
      statusCommitteeFilterStage [7] (some StatusTypes.ACCEPTED)
        [conjunctiveFixture] := by
  constructor
  · simp [statusCommitteeFilterStage, hids, List.mem_filter, List.any_eq_true]
  · decide

/-- Witness for C3: one status entry of the application to committees 5 and 7
satisfies both conditions at once, so it passes the filter. -/
theorem conjunctive_status_committee_filter_witness :
    ([7] : List Nat) ≠ [] ∧
    (conjunctiveFixture ∈
        statusCommitteeFilterStage [9] (some StatusTypes.ACCEPTED)
          [conjunctiveFixture] ↔
      conjunctiveFixture ∈ [conjunctiveFixture] ∧
      ∃ s ∈ conjunctiveFixture.statuses, s.committee ∈ [9] ∧
        s.value = StatusTypes.ACCEPTED) :=
  ⟨by decide,
   (conjunctive_status_committee_filter [9] StatusTypes.ACCEPTED
      [conjunctiveFixture] conjunctiveFixture (by decide)).1⟩

/-! ### C4: the pagination stage -/

/-- Real-valued ceiling division by the fixed page size agrees with the
rounded-up natural division `(n + 3) / 4`. -/
theorem ceil_div_limit (n : Nat) :
    ⌈((n : ℚ) / 4)⌉ = ((n : Int) + 3) / 4 := by
  have h4 : (0 : ℚ) < 4 := by norm_num
  rw [Int.ceil_eq_iff]
  constructor
  · rw [lt_div_iff₀ h4]
    have hz : (((n : Int) + 3) / 4 - 1) * 4 < (n : Int) := by omega
    exact_mod_cast hz
  · rw [div_le_iff₀ h4]
    have hz : (n : Int) ≤ (((n : Int) + 3) / 4) * 4 := by omega
    exact_mod_cast hz

/-- Evaluation of the pagination stage when a page was requested and at least
one document reaches the stage. -/
theorem paginationStage_some (apps : List IPopulatedApplicationCommitteesAndStatus)
    (p : Nat) (hne : apps ≠ []) :
    paginationStage (some p) apps =
      { applications := (apps.drop ((p - 1) * 4)).take 4,
        pagination := some ⟨p, (((apps.length + 3) / 4 : Nat) : Int)⟩ } := by
  have hlen : apps.length ≠ 0 := by simpa [List.length_eq_zero] using hne
  simp [paginationStage, startIndex, LIMIT, hlen]
  exact ceil_div_limit apps.length

/-- Evaluation of the pagination stage when no page was requested and at least
one document reaches the stage. -/
theorem paginationStage_none (apps : List IPopulatedApplicationCommitteesAndStatus)
    (hne : apps ≠ []) :
    paginationStage none apps =
      { applications := apps.take 4,
        pagination := some ⟨0, (((apps.length + 3) / 4 : Nat) : Int)⟩ } := by
  have hlen : apps.length ≠ 0 := by simpa [List.length_eq_zero] using hne
  simp [paginationStage, startIndex, LIMIT, hlen]
  exact ceil_div_limit apps.length

/-- Claim C4 as stated is refuted at total match count 0: the `$count` inside
the `$facet` emits no document on empty input, so the stage reports no
pagination metadata at all — in particular not `numberOfPages = ceil(0/4)` and
not `currentPage` equal to the requested page — and the endpoint's replacement
object then reports `currentPage = 1` although page 2 was requested. -/
theorem pagination_stage_counterexample :
    (paginationStage (some 2)
      ([] : List IPopulatedApplicationCommitteesAndStatus)).pagination = none ∧
    pagedQuery.page = some 2 ∧
    matchedApplications openStore [5] pagedQuery = [] ∧
    getApplicationsCore openStore [5] pagedQuery = emptyListResponse ∧
    emptyListResponse.pagination.currentPage = 1 := by
  refine ⟨by decide, rfl, by decide, by decide, rfl⟩

/-- Claim C4 (amended): for every positive total match count (and validated
page), the pagination stage uses page size 4, skips `(page-1)*4` documents when
a page was supplied and none otherwise, reports `numberOfPages = ceil(total/4)`
and echoes the requested page as `currentPage`, reporting 0 when no page was
requested; with the claim's ten matching applications, page 1 holds 4 items
with `numberOfPages = 3`, page 3 holds 2 items, and an omitted page reports
`currentPage = 0`.  When no documents reach the stage it reports an empty
window and no pagination metadata at all (the endpoint then substitutes the
empty response of C10). -/
theorem pagination_stage_rule :
    (∀ (apps : List IPopulatedApplicationCommitteesAndStatus) (p : Nat),
      apps ≠ [] →
      (paginationStage (some p) apps).applications =
        (apps.drop ((p - 1) * 4)).take 4 ∧
      (paginationStage (some p) apps).pagination =
        some ⟨p, (((apps.length + 3) / 4 : Nat) : Int)⟩) ∧
    (∀ apps : List IPopulatedApplicationCommitteesAndStatus, apps ≠ [] →
      (paginationStage none apps).applications = apps.take 4 ∧
      (paginationStage none apps).pagination =
        some ⟨0, (((apps.length + 3) / 4 : Nat) : Int)⟩) ∧
    (paginationStage (some 1) tenApplications).applications.length = 4 ∧
    (paginationStage (some 1) tenApplications).pagination = some ⟨1, 3⟩ ∧
    (paginationStage (some 3) tenApplications).applications.length = 2 ∧
    (paginationStage none tenApplications).pagination = some ⟨0, 3⟩ ∧
    (∀ page : Option Nat,
      (paginationStage page
        ([] : List IPopulatedApplicationCommitteesAndStatus)).applications = [] ∧
      (paginationStage page
        ([] : List IPopulatedApplicationCommitteesAndStatus)).pagination = none) := by
  have hten : tenApplications ≠ [] := by decide
  refine ⟨?_, ?_, ?_, ?_, ?_, ?_, ?_⟩
  · intro apps p hne
    rw [paginationStage_some apps p hne]
    exact ⟨rfl, rfl⟩
  · intro apps hne
    rw [paginationStage_none apps hne]
    exact ⟨rfl, rfl⟩
  · rw [paginationStage_some tenApplications 1 hten]
    decide
  · rw [paginationStage_some tenApplications 1 hten]
    decide
  · rw [paginationStage_some tenApplications 3 hten]
    decide
  · rw [paginationStage_none tenApplications hten]
    decide
  · intro page
    constructor
    · simp [paginationStage]
    · simp [paginationStage]

/-- Witness for C4 (amended), at page 2 of the ten-application fixture. -/
theorem pagination_stage_rule_witness :
    tenApplications ≠ [] ∧
    (paginationStage (some 2) tenApplications).applications =
      (tenApplications.drop 4).take 4 :=
  ⟨by decide, by
    have h := (pagination_stage_rule.1 tenApplications 2 (by decide)).1
    simpa using h⟩

/-! ### C5: the wipe endpoint -/

/-- Claim C5: a caller outside the Main Board gets 403 and the store is
unchanged; a Main-Board caller gets 200 while Applications, Statuses and
AdmissionPeriods become empty, exactly the caller's own user record survives,
and every committee is closed for admissions. -/
theorem wipe_admission_data_rule (uid : Nat) (store : Store) :
    (MAIN_BOARD_ID ∉ getUserCommitteeIdsByUserId store uid →
      wipeAdmissionData (some uid) store =
        (.err 403 "You do not have access to this resource", store)) ∧
    (MAIN_BOARD_ID ∈ getUserCommitteeIdsByUserId store uid →
      (wipeAdmissionData (some uid) store).1 =
        .ok "Admission data successfully wiped" ∧
      (wipeAdmissionData (some uid) store).2.applications = [] ∧
      (wipeAdmissionData (some uid) store).2.statuses = [] ∧
      (wipeAdmissionData (some uid) store).2.admissionPeriods = [] ∧
      (∀ u : IUser, u ∈ (wipeAdmissionData (some uid) store).2.users ↔
        u ∈ store.users ∧ u._id = uid) ∧
      (wipeAdmissionData (some uid) store).2.committees =
        store.committees.map (fun c => { c with accepts_admissions := false })) := by
  constructor
  · intro h
    simp [wipeAdmissionData, h]
  · intro h
    simp [wipeAdmissionData, h, List.mem_filter]

/-- Witness for C5: membership number 7 sits on the Main Board of the wipe
fixture, and wiping empties the applications collection. -/
theorem wipe_admission_data_rule_witness :
    MAIN_BOARD_ID ∈ getUserCommitteeIdsByUserId wipeStore 7 ∧
    (wipeAdmissionData (some 7) wipeStore).2.applications = [] :=
  ⟨by decide, ((wipe_admission_data_rule 7 wipeStore).2 (by decide)).2.1⟩

/-! ### C6: empty committee membership is not rejected -/

/-- Claim C6 is contradicted by the code: the guard `if (!userCommitteeIds)`
can never fire because an array — including the empty one the resolver returns
for a committee-less user — is always truthy in JavaScript.  For membership
number 42, whose committee set resolves to `[]`, the list endpoint proceeds
with an empty scope and answers 200 with an empty page instead of the claimed
403, and the get-by-id endpoint reaches the ordinary-committee branch and fails
with the access-denied message, not the not-a-member message. -/
theorem empty_membership_not_rejected :
    getUserCommitteeIdsByUserId emptyMembershipStore 42 = [] ∧
    jsArrayFalsy [] = false ∧
    getApplicationsHandler (some 42) emptyMembershipStore plainQuery =
      .ok emptyListResponse ∧
    getApplicationByIdHandler (some 42) emptyMembershipStore 1 =
      .err 403 "You do not have access to this application" := by
  refine ⟨by decide, by decide, by decide, ?_⟩
  have hloop : (ordinaryLoop [] 0 false [sprintCommittee] []).1 = false := by
    rw [ordinaryLoop_fst]
    decide
  have hcore : getApplicationByIdCore [] [sprintCommittee] [] = .forbidden := by
    unfold getApplicationByIdCore
    simp [hloop]
  have hres : getApplicationByIdHandler (some 42) emptyMembershipStore 1 =
      (match getApplicationByIdCore [] [sprintCommittee] [] with
       | .ok cs ss => .ok (cs, ss)
       | .forbidden => .err 403 "You do not have access to this application") := rfl
  rw [hres, hcore]

/-! ### C7: submissions to a closed committee are rejected untouched -/

/-- Claim C7: when some addressed committee exists with
`accepts_admissions = false`, the submit endpoint answers 400 with the
closed-committee message and the store is returned unchanged — no status and
no application is created. -/
theorem closed_committee_submission_rejected
    (body : PostBody) (insertOutcome : StatusInsertOutcome)
    (saveOutcome : AppSaveOutcome) (store : Store)
    (hclosed : ∃ c ∈ store.committees, c._id ∈ body.committees ∧
      c.accepts_admissions = false) :
    postApplication true body insertOutcome saveOutcome store =
      (.badRequest "A committee the application was sent to is closed", store) := by
  obtain ⟨c, hcmem, hcin, hcfl⟩ := hclosed
  have hsome : (store.committees.find? (fun c =>
      body.committees.contains c._id && !c.accepts_admissions)).isSome = true := by
    rw [List.find?_isSome]
    exact ⟨c, hcmem, by simp [hcin, hcfl]⟩
  obtain ⟨c', hc'⟩ := Option.isSome_iff_exists.mp hsome
  unfold postApplication
  rw [hc']
  simp

/-- Witness for C7, at a submission addressed to the closed committee 9. -/
theorem closed_committee_submission_rejected_witness :
    (∃ c ∈ closedStore.committees, c._id ∈ closedBody.committees ∧
      c.accepts_admissions = false) ∧
    postApplication true closedBody (.ok [41]) .saved closedStore =
      (.badRequest "A committee the application was sent to is closed",
       closedStore) :=
  ⟨⟨closedCommittee, by decide, by decide, by decide⟩,
   closed_committee_submission_rejected closedBody (.ok [41]) .saved closedStore
     ⟨closedCommittee, by decide, by decide, by decide⟩⟩

/-! ### C8: a failed status insert creates no application -/

/-- Claim C8: when the ordered bulk insert of statuses fails (whatever part of
it was durably written), the submit endpoint answers 500 and the applications
collection is exactly what it was — the application document is never
created. -/
theorem status_insert_failure_creates_no_application
    (body : PostBody) (saveOutcome : AppSaveOutcome) (store : Store)
    (durable : List IStatus)
    (hopen : ∀ c ∈ store.committees, c._id ∈ body.committees →
      c.accepts_admissions = true) :
    (postApplication true body (.failure durable) saveOutcome store).1 =
      .internal "Something went wrong creating statuses" ∧
    (postApplication true body (.failure durable) saveOutcome store).2.applications =
      store.applications := by
  have hnone : store.committees.find? (fun c =>
      body.committees.contains c._id && !c.accepts_admissions) = none := by
    rw [List.find?_eq_none]
    intro c hc hcontra
    rw [Bool.and_eq_true] at hcontra
    obtain ⟨hin, hfl⟩ := hcontra
    have := hopen c hc (by simpa using hin)
    simp [this] at hfl
  unfold postApplication
  rw [hnone]
  simp

/-- Witness for C8, at the open committee 5 with a failed insert. -/
theorem status_insert_failure_creates_no_application_witness :
    (∀ c ∈ openStore.committees, c._id ∈ openBody.committees →
      c.accepts_admissions = true) ∧
    (postApplication true openBody (.failure []) .saved openStore).2.applications =
      openStore.applications :=
  ⟨by decide,
   (status_insert_failure_creates_no_application openBody .saved openStore []
      (by decide)).2⟩

/-! ### C9: the name filter -/

/-- On patterns free of regex metacharacters, one matching step is a
case-insensitive prefix comparison. -/
theorem regexMatchAt_literal (pat : List Char)
    (hlit : ∀ c ∈ pat, c ∉ regexMetaChars) : ∀ s : List Char,
    regexMatchAt pat s = (pat.map Char.toLower).isPrefixOf (s.map Char.toLower) := by
  induction pat with
  | nil =>
    intro s
    simp [regexMatchAt, List.isPrefixOf]
  | cons p ps ih =>
    intro s
    have hp : p ∉ regexMetaChars := hlit p (by simp)
    have hpd : (p == '.') = false := by
      rw [beq_eq_false_iff_ne]
      intro h
      rw [h] at hp
      exact hp (by decide)
    cases s with
    | nil => simp [regexMatchAt, List.isPrefixOf]
    | cons c cs =>
      simp only [regexMatchAt, List.map_cons, List.isPrefixOf_cons₂, hpd,
        Bool.false_or]
      rw [ih (fun x hx => hlit x (by simp [hx])) cs]

/-- On patterns free of regex metacharacters, the unanchored regex search is
exactly case-insensitive substring containment. -/
theorem regexSearch_eq_containsCI (pat s : List Char)
    (hlit : ∀ c ∈ pat, c ∉ regexMetaChars) :
    regexSearch pat s = containsCI pat s := by
  unfold regexSearch containsCI
  congr 1
  funext i
  exact regexMatchAt_literal pat hlit (s.drop i)

/-- Claim C9 as stated is refuted: the raw `name` parameter is handed to
`$regex`, so the filter string "." (no metacharacters escaped) matches the
applicant name "ab", which does not contain "." as a substring. -/
theorem name_filter_counterexample :
    abApplication ∈ nameStage "." [abApplication] ∧
    containsCI ".".data abApplication.name.data = false := by
  constructor
  · decide
  · decide

/-- Claim C9 (amended): the name stage, applied only when a non-empty name was
supplied, filters by interpreting the supplied string as a case-insensitive
unanchored regular expression; for filter strings without regex metacharacters
this coincides with case-insensitive substring containment, and with no name
supplied the stage is the identity. -/
theorem name_filter_rule (pat : String) (apps : List IApplication)
    (a : IApplication) (hne : pat ≠ "")
    (hlit : ∀ c ∈ pat.data, c ∉ regexMetaChars) :
    (a ∈ nameStage pat apps ↔
      a ∈ apps ∧ containsCI pat.data a.name.data = true) ∧
    nameStage "" apps = apps := by
  constructor
  · rw [show nameStage pat apps =
        apps.filter (fun x => regexSearch pat.data x.name.data) from by
      simp [nameStage, hne]]
    rw [List.mem_filter, regexSearch_eq_containsCI pat.data a.name.data hlit]
  · simp [nameStage]

/-- Witness for C9 (amended), at the literal filter string "ola" and the
applicant "Ola Nordmann". -/
theorem name_filter_rule_witness :
    (("ola" : String) ≠ "") ∧
    (mbOnlyApplication ∈ nameStage "ola" [mbOnlyApplication] ↔
      mbOnlyApplication ∈ [mbOnlyApplication] ∧
      containsCI "ola".data mbOnlyApplication.name.data = true) :=
  ⟨by decide,
   (name_filter_rule "ola" [mbOnlyApplication] mbOnlyApplication (by decide)
      (by decide)).1⟩

/-! ### C10: an out-of-range page collapses to the empty response -/

/-- Claim C10: whenever the requested page's window is empty — even though the
match set itself is non-empty — the list endpoint's emptiness test on the
returned window fires and the response is
`{ applications: [], pagination: { currentPage: 1, numberOfPages: 0 } }`. -/
theorem out_of_range_page_empty_response
    (store : Store) (userCommitteeIds : List Nat) (q : QueryParams) (p : Nat)
    (hp : q.page = some p)
    (hne : matchedApplications store userCommitteeIds q ≠ [])
    (hout : (matchedApplications store userCommitteeIds q).length ≤
      (p - 1) * LIMIT) :
    getApplicationsCore store userCommitteeIds q = emptyListResponse ∧
    emptyListResponse.pagination = ⟨1, 0⟩ := by
  have _ := hne
  constructor
  · have hwin : (paginationStage q.page
        (matchedApplications store userCommitteeIds q)).applications = [] := by
      simp only [paginationStage, hp, startIndex]
      rw [List.drop_eq_nil_of_le hout]
      simp
    unfold getApplicationsCore
    by_cases hEC : userCommitteeIds.contains ELECTION_COMMITTEE_ID <;>
      simp [hEC, hwin, emptyListResponse]
  · rfl

/-- Witness for C10: one visible application, page 2 requested; the window is
empty although the match set is not, and the endpoint answers with the empty
response whose pagination reads `currentPage = 1`, `numberOfPages = 0`. -/
theorem out_of_range_page_empty_response_witness :
    pagedQuery.page = some 2 ∧
    matchedApplications onePageStore [5] pagedQuery ≠ [] ∧
    (matchedApplications onePageStore [5] pagedQuery).length ≤ (2 - 1) * LIMIT ∧
    getApplicationsCore onePageStore [5] pagedQuery = emptyListResponse :=
  ⟨rfl, by decide, by decide,
   (out_of_range_page_empty_response onePageStore [5] pagedQuery 2 rfl
      (by decide) (by decide)).1⟩

end Opptak
